import Mathlib

/-!
Verification development for the EnvCanViz repository (CSV loading,
cleaning, resampling, summarizing and plotting of Environment Canada
weather data).

The pandas DataFrame is embedded as an ordered association list of
columns, each column an ordered list of cells.  A cell is a string, an
exact rational number (standing for a float), a timestamp (an integer
point on the time axis), or the missing marker (NaN / NaT).

The two external parsers used by the code, pandas.to_numeric and
pandas.to_datetime, are library functions outside this repository; they
enter the embedding as explicit function parameters
(p : String -> Option Rat and pt : String -> Option Int, with none
standing for a failed parse, i.e. NaN / NaT).  Concrete stand-in
parsers are provided for witnesses and counterexamples.
-/

namespace EnvCanViz

/-- A cell of the table: string, number (float), timestamp, or the
missing marker (NaN / NaT). -/
inductive Value where
  | str (s : String)
  | num (x : Rat)
  | time (t : Int)
  | missing
deriving DecidableEq

/-- A DataFrame: an ordered list of named columns (pandas is
column-oriented; rows are the aligned positions across columns). -/
abbrev DF := List (String × List Value)

/-- The column names of a frame, in order (df.columns). -/
def names (df : DF) : List String := df.map (fun nv => nv.1)

/-- The cells of a named column (df[c]); first match, empty if absent. -/
def colOf (df : DF) (c : String) : List Value := (List.lookup c df).getD []

/-- Rewrite one named column through f, leaving the rest unchanged
(the in-place assignment df[c] = f(df[c])). -/
def mapCol (df : DF) (c : String) (f : List Value → List Value) : DF :=
  df.map (fun nv => if nv.1 = c then (nv.1, f nv.2) else nv)

/-- Python truthiness of an Optional[str]: None and the empty string
are falsy. -/
def truthyS : Option String → Bool
  | none => false
  | some s => decide (s ≠ "")

/-- pandas.to_numeric(value, errors="coerce") on one cell, for a given
string parser p.  Unparsable strings become NaN (missing); numbers are
unchanged; timestamps become their numeric position. -/
def coerceNum (p : String → Option Rat) : Value → Value
  | .str s =>
    match p s with
    | some x => .num x
    | none => .missing
  | .num x => .num x
  | .time t => .num (t : Rat)
  | .missing => .missing

/-- The numeric content of a cell after coercion, none for missing. -/
def toNumOpt (p : String → Option Rat) (v : Value) : Option Rat :=
  match coerceNum p v with
  | .num x => some x
  | _ => none

/-- pd.to_numeric(df[col], errors="coerce").dropna(): the non-missing
numeric values of a column, in order. -/
def toNumericDropna (p : String → Option Rat) (df : DF) (c : String) : List Rat :=
  (colOf df c).filterMap (toNumOpt p)

/-- DataProcessor.to_numeric (processor.py lines 43 to 46): for each
requested column present in the frame, coerce every cell to numeric. -/
def to_numeric (p : String → Option Rat) (df : DF) (columns : List String) : DF :=
  columns.foldl (fun acc col =>
    if col ∈ names acc then mapCol acc col (List.map (coerceNum p)) else acc) df

/-- Python str() of a cell, as produced by Series.astype(str); a missing
value prints as nan.  The renderings of numbers and timestamps stand in
for the Python float and Timestamp reprs. -/
def cellToStr : Value → String
  | .str s => s
  | .num x => toString x
  | .time t => toString t
  | .missing => "nan"

/-- Python str.strip(): drop leading and trailing whitespace (on the
character list of the string). -/
def stripChars (l : List Char) : List Char :=
  ((l.dropWhile Char.isWhitespace).reverse.dropWhile Char.isWhitespace).reverse

/-- Python str.lower() on a character list. -/
def lowerChars (l : List Char) : List Char := l.map Char.toLower

/-- The match test of handle_trace_values (processor.py lines 79 to 80):
the cell rendered as a string, stripped of surrounding whitespace and
lowercased, equals the lowercased token. -/
def traceMatches (trace_token : String) (v : Value) : Bool :=
  lowerChars (stripChars (cellToStr v).toList) == lowerChars trace_token.toList

/-- DataProcessor.handle_trace_values (processor.py lines 77 to 83): in
each requested column present, replace every cell matching the token by
the numeric replacement.  The mask.any() guard in the source only skips
a no-op assignment and has no semantic effect. -/
def handle_trace_values (df : DF) (columns : List String)
    (trace_token : String) (replacement : Rat) : DF :=
  columns.foldl (fun acc col =>
    if col ∈ names acc then
      mapCol acc col (List.map (fun v =>
        if traceMatches trace_token v then Value.num replacement else v))
    else acc) df

/-- Decimal reading of a nonempty all-digit character list. -/
def natOfDigits (cs : List Char) : Option Nat :=
  if cs ≠ [] ∧ cs.all Char.isDigit then
    some (cs.foldl (fun a c => 10 * a + (c.toNat - 48)) 0)
  else none

/-- Concrete stand-in for the pandas numeric parser: nonnegative decimal
integers parse, everything else is NaN. -/
def parseNumSimple (s : String) : Option Rat :=
  (natOfDigits (stripChars s.toList)).map (fun n => (n : Rat))

/-- Concrete stand-in for the pandas datetime parser: nonnegative decimal
integers parse as time points, everything else is NaT. -/
def parseTimeSimple (s : String) : Option Int :=
  (natOfDigits (stripChars s.toList)).map (fun n => (n : Int))

theorem mapCol_not_mem (df : DF) (c : String) (f : List Value → List Value)
    (h : c ∉ names df) : mapCol df c f = df := by
  unfold mapCol
  have hnv : ∀ nv ∈ df, (if nv.1 = c then (nv.1, f nv.2) else nv) = nv := by
    intro nv hm
    have : nv.1 ≠ c := by
      intro he
      exact h (he ▸ List.mem_map_of_mem (fun nv => nv.1) hm)
    simp [this]
  calc df.map (fun nv => if nv.1 = c then (nv.1, f nv.2) else nv)
      = df.map id := List.map_congr_left hnv
    _ = df := List.map_id df

/-- Closed form of the per-column fold used by to_numeric and
handle_trace_values: when the per-cell rewrite is idempotent, folding
over the requested names is one map over the frame. -/
theorem foldl_colmap_eq_map (f : Value → Value) (hf : ∀ v, f (f v) = f v) :
    ∀ (cs : List String) (df : DF),
      cs.foldl (fun acc col =>
          if col ∈ names acc then mapCol acc col (List.map f) else acc) df
        = df.map (fun nv => if nv.1 ∈ cs then (nv.1, nv.2.map f) else nv) := by
  intro cs
  induction cs with
  | nil =>
    intro df
    simp
  | cons c cs ih =>
    intro df
    have hstep : (if c ∈ names df then mapCol df c (List.map f) else df)
        = mapCol df c (List.map f) := by
      by_cases h : c ∈ names df
      · simp [h]
      · simp [h, mapCol_not_mem df c _ h]
    rw [List.foldl_cons, hstep, ih, mapCol, List.map_map]
    apply List.map_congr_left
    intro nv _
    by_cases hc : nv.1 = c
    · have hmm : (nv.2.map f).map f = nv.2.map f := by
        rw [List.map_map]
        exact List.map_congr_left (fun v _ => hf v)
      by_cases hcs : nv.1 ∈ cs <;>
        simp [Function.comp, hc, hcs, hmm, List.mem_cons]
    · by_cases hcs : nv.1 ∈ cs <;>
        simp [Function.comp, hc, hcs, List.mem_cons]

theorem coerceNum_idem (p : String → Option Rat) :
    ∀ v, coerceNum p (coerceNum p v) = coerceNum p v := by
  intro v
  cases v with
  | str s =>
    simp only [coerceNum]
    cases p s <;> simp [coerceNum]
  | num x => rfl
  | time t => rfl
  | missing => rfl

theorem traceRule_idem (tok : String) (repl : Rat) :
    ∀ v, (fun v => if traceMatches tok v then Value.num repl else v)
           ((fun v => if traceMatches tok v then Value.num repl else v) v)
         = (fun v => if traceMatches tok v then Value.num repl else v) v := by
  intro v
  by_cases h : traceMatches tok v = true
  · simp only [h, if_pos]
    by_cases h2 : traceMatches tok (Value.num repl) = true <;> simp [h2]
  · simp [h]

/-- C9: to_numeric is idempotent: re-coercing the columns of an already
coerced frame changes nothing, for every frame, column list and parser. -/
theorem to_numeric_idempotent (p : String → Option Rat) (df : DF)
    (columns : List String) :
    to_numeric p (to_numeric p df columns) columns = to_numeric p df columns := by
  unfold to_numeric
  rw [foldl_colmap_eq_map _ (coerceNum_idem p), foldl_colmap_eq_map _ (coerceNum_idem p),
      List.map_map]
  apply List.map_congr_left
  intro nv _
  by_cases hc : nv.1 ∈ columns
  · have hmm : (nv.2.map (coerceNum p)).map (coerceNum p) = nv.2.map (coerceNum p) := by
      rw [List.map_map]
      exact List.map_congr_left (fun v _ => coerceNum_idem p v)
    simp [Function.comp, hc, hmm]
  · simp [Function.comp, hc]

/-- C8: handle_trace_values rewrites exactly the cells whose stripped,
lowercased string form equals the lowercased token, in the requested
columns that exist; every other cell and column is untouched.  With
token Trace, the values Trace, space trace space, and TRACE all match,
while Trace amount does not (full-value equality, not substring). -/
theorem handle_trace_values_spec (df : DF) (columns : List String)
    (tok : String) (repl : Rat) :
    handle_trace_values df columns tok repl
      = df.map (fun nv => if nv.1 ∈ columns
          then (nv.1, nv.2.map (fun v =>
                 if traceMatches tok v then Value.num repl else v))
          else nv)
    ∧ traceMatches "Trace" (Value.str "Trace") = true
    ∧ traceMatches "Trace" (Value.str " trace ") = true
    ∧ traceMatches "Trace" (Value.str "TRACE") = true
    ∧ traceMatches "Trace" (Value.str "Trace amount") = false := by
  refine ⟨?_, by decide, by decide, by decide, by decide⟩
  unfold handle_trace_values
  exact foldl_colmap_eq_map _ (traceRule_idem tok repl) columns df

/-- Elementwise comparison cell >= bound on a datetime column, pandas
style: a genuine timestamp compares normally, and any comparison that
involves NaT (an unparsed bound) or a non-timestamp cell is false. -/
def cellGeTime (v : Value) (b : Option Int) : Bool :=
  match v, b with
  | .time t, some b0 => decide (b0 ≤ t)
  | _, _ => false

/-- Elementwise comparison cell <= bound, pandas style (see cellGeTime). -/
def cellLeTime (v : Value) (b : Option Int) : Bool :=
  match v, b with
  | .time t, some b0 => decide (t ≤ b0)
  | _, _ => false

/-- Boolean-mask row selection on one column (df[mask] restricted to a
single column): keep the cells at the positions where the mask is true. -/
def maskFilter (mask : List Bool) (l : List Value) : List Value :=
  (l.zip mask).filterMap (fun vb => if vb.2 then some vb.1 else none)

/-- Boolean-mask row selection on a whole frame, df[mask]. -/
def filterRows (df : DF) (mask : List Bool) : DF :=
  df.map (fun nv => (nv.1, maskFilter mask nv.2))

/-- DataProcessor.filter_date_range (processor.py lines 114 to 120).
The stop argument is the bound named end in the source.  Each provided
(truthy) bound is parsed with pandas.to_datetime errors=coerce, giving
none (NaT) when unparsable, and the frame is masked by the elementwise
comparison against that bound; the second mask is built from the frame
already filtered by the first. -/
def filter_date_range (pt : String → Option Int) (df : DF)
    (datetime_col : String) (start stop : Option String) : DF :=
  if datetime_col ∉ names df then df
  else
    let df1 := if truthyS start then
        filterRows df ((colOf df datetime_col).map
          (fun v => cellGeTime v (start.bind pt)))
      else df
    let df2 := if truthyS stop then
        filterRows df1 ((colOf df1 datetime_col).map
          (fun v => cellLeTime v (stop.bind pt)))
      else df1
    df2

theorem lookup_map_snd (g : List Value → List Value) (c : String) (df : DF) :
    List.lookup c (df.map (fun nv => (nv.1, g nv.2)))
      = (List.lookup c df).map g := by
  induction df with
  | nil => rfl
  | cons nv rest ih =>
    simp only [List.map_cons, List.lookup]
    by_cases h : (c == nv.1) = true
    · simp [h]
    · simp only [h, Bool.false_eq_true, if_false, ih]

theorem colOf_filterRows (df : DF) (mask : List Bool) (c : String) :
    colOf (filterRows df mask) c = maskFilter mask (colOf df c) := by
  unfold colOf filterRows
  rw [lookup_map_snd]
  cases List.lookup c df with
  | none => simp [maskFilter]
  | some l => rfl

theorem maskFilter_map_self (f : Value → Bool) (l : List Value) :
    maskFilter (l.map f) l = l.filter f := by
  induction l with
  | nil => rfl
  | cons v vs ih =>
    cases hfv : f v <;>
      simp only [maskFilter, List.map_cons, List.zip_cons_cons,
        List.filterMap_cons, List.filter_cons, hfv, Bool.false_eq_true,
        if_false, if_true, List.cons.injEq, true_and] at ih ⊢ <;>
      exact ih

theorem maskFilter_all_false (mask : List Bool) (l : List Value)
    (h : ∀ b ∈ mask, b = false) : maskFilter mask l = [] := by
  induction mask generalizing l with
  | nil => cases l <;> rfl
  | cons b bs ih =>
    cases l with
    | nil => rfl
    | cons v vs =>
      have hb : b = false := h b (by simp)
      subst hb
      simp only [maskFilter, List.zip_cons_cons, List.filterMap_cons,
        Bool.false_eq_true, if_false]
      exact ih vs (fun b hbm => h b (by simp [hbm]))

theorem cellGeTime_none (v : Value) : cellGeTime v none = false := by
  cases v <;> rfl

theorem cellLeTime_none (v : Value) : cellLeTime v none = false := by
  cases v <;> rfl

/-- C5: with a parsed datetime column and two provided, parseable bounds,
filter_date_range keeps exactly the rows whose timestamp t satisfies
s0 <= t and t <= e0; in particular a row whose timestamp equals either
bound is retained, so the filter is inclusive on both sides. -/
theorem filter_date_range_inclusive (pt : String → Option Int) (df : DF)
    (datetime_col s e : String) (s0 e0 : Int)
    (hdt : datetime_col ∈ names df)
    (hs : pt s = some s0) (he : pt e = some e0)
    (hsne : s ≠ "") (hene : e ≠ "") :
    colOf (filter_date_range pt df datetime_col (some s) (some e)) datetime_col
      = (colOf df datetime_col).filter
          (fun v => cellGeTime v (some s0) && cellLeTime v (some e0))
    ∧ (∀ t : Int, Value.time t ∈ colOf df datetime_col → s0 ≤ t → t ≤ e0 →
        Value.time t ∈
          colOf (filter_date_range pt df datetime_col (some s) (some e))
            datetime_col) := by
  have hmain :
      colOf (filter_date_range pt df datetime_col (some s) (some e)) datetime_col
        = (colOf df datetime_col).filter
            (fun v => cellGeTime v (some s0) && cellLeTime v (some e0)) := by
    unfold filter_date_range
    have hts : truthyS (some s) = true := by simp [truthyS, hsne]
    have hte : truthyS (some e) = true := by simp [truthyS, hene]
    have hbs : (some s).bind pt = some s0 := by simp [Option.bind, hs]
    have hbe : (some e).bind pt = some e0 := by simp [Option.bind, he]
    simp only [hdt, not_true_eq_false, if_false, hts, hte, if_true, hbs, hbe]
    rw [colOf_filterRows, colOf_filterRows, maskFilter_map_self,
        maskFilter_map_self, List.filter_filter]
    apply List.filter_congr
    intro v _
    exact Bool.and_comm _ _
  refine ⟨hmain, ?_⟩
  intro t hmem hst hte
  rw [hmain, List.mem_filter]
  exact ⟨hmem, by simp [cellGeTime, cellLeTime, hst, hte]⟩

/-- C5 witness: a three-row frame with timestamps 0, 5, 9 filtered to
the inclusive range 0 to 5 keeps exactly the boundary rows 0 and 5. -/
theorem filter_date_range_inclusive_witness :
    ("dt" ∈ names [("dt", [Value.time 0, Value.time 5, Value.time 9])])
    ∧ parseTimeSimple "0" = some 0
    ∧ parseTimeSimple "5" = some 5
    ∧ colOf (filter_date_range parseTimeSimple
          [("dt", [Value.time 0, Value.time 5, Value.time 9])] "dt"
          (some "0") (some "5")) "dt"
        = [Value.time 0, Value.time 5] := by
  refine ⟨by decide, by decide, by decide, ?_⟩
  have h := (filter_date_range_inclusive parseTimeSimple
    [("dt", [Value.time 0, Value.time 5, Value.time 9])] "dt" "0" "5" 0 5
    (by decide) (by decide) (by decide) (by decide) (by decide)).1
  rw [h]
  decide

/-- C1 amended: an unparsable provided bound does not act as a missing
bound; the elementwise comparison against NaT is false everywhere, so
the filter retains no rows at all (every column of the result is empty).
The call still does not raise. -/
theorem filter_date_range_unparsable_empty (pt : String → Option Int)
    (df : DF) (datetime_col : String) (start stop : Option String)
    (hdt : datetime_col ∈ names df)
    (hbad : (truthyS start = true ∧ start.bind pt = none)
          ∨ (truthyS stop = true ∧ stop.bind pt = none)) :
    filter_date_range pt df datetime_col start stop
      = df.map (fun nv => (nv.1, ([] : List Value))) := by
  unfold filter_date_range
  simp only [hdt, not_true_eq_false, if_false]
  rcases hbad with ⟨hts, hpn⟩ | ⟨hts, hpn⟩
  · have h1 : (if truthyS start then
        filterRows df ((colOf df datetime_col).map
          (fun v => cellGeTime v (start.bind pt)))
      else df) = df.map (fun nv => (nv.1, ([] : List Value))) := by
      rw [if_pos hts, hpn]
      unfold filterRows
      apply List.map_congr_left
      intro nv _
      refine congrArg (Prod.mk nv.1) ?_
      apply maskFilter_all_false
      intro b hb
      rcases List.mem_map.mp hb with ⟨v, _, hv⟩
      rw [← hv, cellGeTime_none]
    rw [h1]
    by_cases hts2 : truthyS stop = true
    · rw [if_pos hts2]
      unfold filterRows
      rw [List.map_map]
      apply List.map_congr_left
      intro nv _
      refine congrArg (Prod.mk nv.1) ?_
      simp [maskFilter]
    · rw [if_neg (by simp [hts2])]
  · set df1 := (if truthyS start then
        filterRows df ((colOf df datetime_col).map
          (fun v => cellGeTime v (start.bind pt)))
      else df) with hdf1
    rw [if_pos hts, hpn]
    have h2 : filterRows df1 ((colOf df1 datetime_col).map
        (fun v => cellLeTime v none))
        = df1.map (fun nv => (nv.1, ([] : List Value))) := by
      unfold filterRows
      apply List.map_congr_left
      intro nv _
      refine congrArg (Prod.mk nv.1) ?_
      apply maskFilter_all_false
      intro b hb
      rcases List.mem_map.mp hb with ⟨v, _, hv⟩
      rw [← hv, cellLeTime_none]
    rw [h2, hdf1]
    by_cases hts1 : truthyS start = true
    · rw [if_pos hts1]
      unfold filterRows
      rw [List.map_map]
      apply List.map_congr_left
      intro nv _
      refine congrArg (Prod.mk nv.1) ?_
      rfl
    · rw [if_neg (by simp [hts1])]

/-- C1 counterexample: a one-row frame filtered with the unparsable
start bound garbage and no end bound.  The claim predicts the frame
unchanged (the unparsable bound acting as a vacuous constraint), but
the code retains no rows. -/
theorem filter_date_range_unparsable_cex :
    filter_date_range parseTimeSimple [("dt", [Value.time 0])] "dt"
        (some "garbage") none
      = [("dt", ([] : List Value))]
    ∧ filter_date_range parseTimeSimple [("dt", [Value.time 0])] "dt"
        (some "garbage") none
      ≠ [("dt", [Value.time 0])] := by
  constructor
  · decide
  · decide

/-- C1 amended witness: a concrete two-column frame with the unparsable
start bound garbage comes back with every column present but empty. -/
theorem filter_date_range_unparsable_empty_witness :
    ("dt" ∈ names [("dt", [Value.time 3]), ("v", [Value.num 1])])
    ∧ (truthyS (some "garbage") = true
        ∧ (some "garbage").bind parseTimeSimple = none)
    ∧ filter_date_range parseTimeSimple
        [("dt", [Value.time 3]), ("v", [Value.num 1])] "dt"
        (some "garbage") none
      = [("dt", []), ("v", [])] := by
  refine ⟨by decide, ⟨by decide, by decide⟩, ?_⟩
  exact filter_date_range_unparsable_empty parseTimeSimple
    [("dt", [Value.time 3]), ("v", [Value.num 1])] "dt"
    (some "garbage") none (by decide) (Or.inl ⟨by decide, by decide⟩)

/-- The numeric content of a cell, none for anything non-numeric. -/
def numOf : Value → Option Rat
  | .num x => some x
  | _ => none

/-- First element of a nonempty fold by min (Series.min style). -/
def minFold [Min α] : List α → Option α
  | [] => none
  | x :: xs => some (xs.foldl min x)

/-- Largest element of a list, none when empty (Series.max style). -/
def maxFold [Max α] : List α → Option α
  | [] => none
  | x :: xs => some (xs.foldl max x)

/-- Insertion into a sorted list of rationals. -/
def insertRat (x : Rat) : List Rat → List Rat
  | [] => [x]
  | y :: ys => if x ≤ y then x :: y :: ys else y :: insertRat x ys

/-- Insertion sort of rationals, for the median. -/
def sortRats (xs : List Rat) : List Rat := xs.foldr insertRat []

/-- Median in the pandas sense: middle element of the sorted values for
odd length, mean of the two middle elements for even length, NaN (none)
for an empty set. -/
def medianOf (xs : List Rat) : Option Rat :=
  let s := sortRats xs
  let n := s.length
  if n = 0 then none
  else if n % 2 = 1 then some (s.getD (n / 2) 0)
  else some ((s.getD (n / 2 - 1) 0 + s.getD (n / 2) 0) / 2)

/-- The pandas reduction of one resample bucket of one column, applied
to the non-missing values of the bucket.  Note that the pandas resample
sum of an empty or all-missing bucket is 0 (min_count defaults to 0),
while mean, min, max and median of an empty bucket are NaN (none). -/
def aggNum (agg : String) (xs : List Rat) : Option Rat :=
  if agg = "mean" then
    if xs.length = 0 then none else some (xs.sum / (xs.length : Rat))
  else if agg = "sum" then some xs.sum
  else if agg = "min" then minFold xs
  else if agg = "max" then maxFold xs
  else if agg = "median" then medianOf xs
  else none

/-- The rows of the frame as (timestamp, selected cells) pairs, in row
order (df.set_index(datetime_col)[cols]); rows whose index cell is not
a genuine timestamp cannot be placed in any bucket and are skipped. -/
def rowsOf (df : DF) (datetime_col : String) (cols : List String) :
    List (Int × List Value) :=
  (List.range (colOf df datetime_col).length).filterMap (fun i =>
    match (colOf df datetime_col).getD i Value.missing with
    | .time t => some (t, cols.map (fun c => (colOf df c).getD i Value.missing))
    | _ => none)

/-- Start of the fixed-width bucket containing timestamp t: the largest
multiple of the width w that is not above t (floor semantics). -/
def bucketOf (w : Nat) (t : Int) : Int := (w : Int) * (t.fdiv (w : Int))

/-- All bucket starts of the resampled range, from the bucket of the
earliest row to the bucket of the latest row, consecutively; pandas
materializes the gap buckets in between as well. -/
def bucketList (w : Nat) (ts : List Int) : List Int :=
  match minFold ts, maxFold ts with
  | some a, some b =>
    (List.range (((bucketOf w b - bucketOf w a).toNat / w) + 1)).map
      (fun i => bucketOf w a + (w : Int) * (i : Int))
  | _, _ => []

/-- One aggregated cell: the reduction of the bucket values of one
column, NaN (missing) when pandas produces NaN. -/
def aggCell (agg : String) (vals : List Value) : Value :=
  match aggNum agg (vals.filterMap numOf) with
  | some x => .num x
  | none => .missing

/-- The aggregated rows, one per bucket of the range, each carrying the
k selected columns reduced over the rows falling in that bucket. -/
def aggRowsOf (agg : String) (w : Nat) (rows : List (Int × List Value))
    (k : Nat) : List (Int × List Value) :=
  (bucketList w (rows.map (fun r => r.1))).map (fun b =>
    (b, (List.range k).map (fun j =>
      aggCell agg ((rows.filter (fun r => bucketOf w r.1 == b)).map
        (fun r => r.2.getD j Value.missing)))))

/-- The aggregation pipeline of DataProcessor.resample after validation
(processor.py lines 165 to 177): group by bucket, reduce each selected
column, drop the aggregated rows that are entirely NaN
(dropna how=all), and re-expose the bucket start as the first, ordinary
column of the result (reset_index). -/
def resampleCore (freqW : String → Nat) (df : DF) (datetime_col : String)
    (freq : String) (agg : String) (cols : List String) : DF :=
  let rows := rowsOf df datetime_col cols
  let kept := (aggRowsOf agg (freqW freq) rows cols.length).filter
    (fun r => !(r.2.all (fun v => v == Value.missing)))
  (datetime_col, kept.map (fun r => Value.time r.1)) ::
    cols.enum.map (fun jc =>
      (jc.2, kept.map (fun r => r.2.getD jc.1 Value.missing)))

/-- DataProcessor.resample (processor.py lines 122 to 177).  The
calendar semantics of a pandas frequency string enter as the width
function freqW.  Validation failure returns none; the five supported
aggregation names proceed (the per-bucket dispatch lives in aggNum);
any other name raises SystemExit, modeled as the error case. -/
def resample (freqW : String → Nat) (df : DF) (datetime_col : String)
    (freq : Option String) (agg : String) (cols : List String) :
    Except String (Option DF) :=
  if ¬ truthyS freq = true ∨ datetime_col ∉ names df
      ∨ ¬ (∀ c ∈ cols, c ∈ names df) then
    Except.ok none
  else if agg = "mean" ∨ agg = "sum" ∨ agg = "min" ∨ agg = "max"
      ∨ agg = "median" then
    Except.ok (some (resampleCore freqW df datetime_col (freq.getD "") agg cols))
  else
    Except.error ("Unsupported agg: " ++ agg
      ++ ". Choose from mean,sum,min,max,median.")

/-- Concrete stand-in width function for witnesses: frequency D is one
unit wide (timestamps measured in days). -/
def freqDays : String → Nat := fun f => if f = "D" then 1 else 0

deriving instance DecidableEq for Except

theorem truthyS_eq_false_iff (o : Option String) :
    truthyS o = false ↔ o = none ∨ o = some "" := by
  cases o with
  | none => simp [truthyS]
  | some s => simp [truthyS]

/-- C4: resample returns none exactly when the frequency is missing or
empty, the datetime column is absent, or some requested value column is
absent; and with otherwise valid inputs, an aggregation name outside
mean, sum, min, max, median makes it abort with the fatal configuration
error rather than return a table or none. -/
theorem resample_none_iff (freqW : String → Nat) (df : DF)
    (datetime_col : String) (freq : Option String) (agg : String)
    (cols : List String) :
    (resample freqW df datetime_col freq agg cols = Except.ok none ↔
      ((freq = none ∨ freq = some "") ∨ datetime_col ∉ names df
        ∨ ∃ c ∈ cols, c ∉ names df))
    ∧ ((truthyS freq = true ∧ datetime_col ∈ names df
          ∧ (∀ c ∈ cols, c ∈ names df)
          ∧ agg ∉ (["mean", "sum", "min", "max", "median"] : List String)) →
        ∃ msg, resample freqW df datetime_col freq agg cols
          = Except.error msg) := by
  have hVR : (¬ truthyS freq = true ∨ datetime_col ∉ names df
      ∨ ¬ (∀ c ∈ cols, c ∈ names df)) ↔
      ((freq = none ∨ freq = some "") ∨ datetime_col ∉ names df
        ∨ ∃ c ∈ cols, c ∉ names df) := by
    rw [Bool.not_eq_true, truthyS_eq_false_iff]
    constructor
    · rintro (h | h | h)
      · exact Or.inl h
      · exact Or.inr (Or.inl h)
      · refine Or.inr (Or.inr ?_)
        push_neg at h
        exact h
    · rintro (h | h | h)
      · exact Or.inl h
      · exact Or.inr (Or.inl h)
      · refine Or.inr (Or.inr ?_)
        push_neg
        exact h
  constructor
  · unfold resample
    by_cases hv : (¬ truthyS freq = true ∨ datetime_col ∉ names df
        ∨ ¬ (∀ c ∈ cols, c ∈ names df))
    · rw [if_pos hv]
      exact ⟨fun _ => hVR.mp hv, fun _ => rfl⟩
    · rw [if_neg hv]
      have hR : ¬ ((freq = none ∨ freq = some "") ∨ datetime_col ∉ names df
          ∨ ∃ c ∈ cols, c ∉ names df) := fun hr => hv (hVR.mpr hr)
      by_cases ha : (agg = "mean" ∨ agg = "sum" ∨ agg = "min" ∨ agg = "max"
          ∨ agg = "median")
      · rw [if_pos ha]
        exact ⟨fun h => absurd h (by simp), fun hr => absurd hr hR⟩
      · rw [if_neg ha]
        exact ⟨fun h => absurd h (by simp), fun hr => absurd hr hR⟩
  · rintro ⟨hf, hdtm, hcols, hagg⟩
    have hv : ¬ (¬ truthyS freq = true ∨ datetime_col ∉ names df
        ∨ ¬ (∀ c ∈ cols, c ∈ names df)) := by
      rintro (h | h | h)
      · exact h hf
      · exact h hdtm
      · exact h hcols
    have ha : ¬ (agg = "mean" ∨ agg = "sum" ∨ agg = "min" ∨ agg = "max"
        ∨ agg = "median") := by
      intro h
      exact hagg (by rcases h with h | h | h | h | h <;> simp [h])
    unfold resample
    rw [if_neg hv, if_neg ha]
    exact ⟨_, rfl⟩

/-- C4 witness: with a missing frequency resample returns none, and with
valid inputs but the unsupported aggregation avg it aborts. -/
theorem resample_none_iff_witness :
    resample freqDays [("dt", [Value.time 0]), ("v", [Value.num 1])] "dt"
        none "mean" ["v"] = Except.ok none
    ∧ ∃ msg, resample freqDays [("dt", [Value.time 0]), ("v", [Value.num 1])]
        "dt" (some "D") "avg" ["v"] = Except.error msg := by
  constructor
  · exact (resample_none_iff freqDays
      [("dt", [Value.time 0]), ("v", [Value.num 1])] "dt" none "mean"
      ["v"]).1.mpr (Or.inl (Or.inl rfl))
  · exact (resample_none_iff freqDays
      [("dt", [Value.time 0]), ("v", [Value.num 1])] "dt" (some "D") "avg"
      ["v"]).2 ⟨by decide, by decide, by decide, by decide⟩

theorem aggNum_some_nonempty (agg : String) (xs : List Rat) (x : Rat)
    (hagg : agg = "mean" ∨ agg = "min" ∨ agg = "max" ∨ agg = "median")
    (h : aggNum agg xs = some x) : xs ≠ [] := by
  intro hnil
  subst hnil
  rcases hagg with h1 | h1 | h1 | h1 <;> subst h1 <;>
    simp [aggNum, minFold, maxFold, medianOf, sortRats] at h

/-- C3 amended: for the aggregations mean, min, max and median, every
bucket present in the resampled output has, in at least one selected
column, at least one non-missing numeric input value falling in that
bucket; buckets whose selected columns are entirely missing are dropped
by dropna how=all.  For sum this fails, because pandas sums an
all-missing bucket to 0 instead of NaN (see the counterexample). -/
theorem resample_drops_all_missing_buckets (freqW : String → Nat) (df : DF)
    (datetime_col : String) (freq : Option String) (agg : String)
    (cols : List String) (out : DF)
    (hagg : agg = "mean" ∨ agg = "min" ∨ agg = "max" ∨ agg = "median")
    (hout : resample freqW df datetime_col freq agg cols
        = Except.ok (some out)) :
    ∀ b : Int, Value.time b ∈ colOf out datetime_col →
      ∃ j < cols.length, ∃ r ∈ rowsOf df datetime_col cols,
        bucketOf (freqW (freq.getD "")) r.1 = b
        ∧ (numOf (r.2.getD j Value.missing)).isSome = true := by
  have hadisj : agg = "mean" ∨ agg = "sum" ∨ agg = "min" ∨ agg = "max"
      ∨ agg = "median" := by
    rcases hagg with h | h | h | h
    · exact Or.inl h
    · exact Or.inr (Or.inr (Or.inl h))
    · exact Or.inr (Or.inr (Or.inr (Or.inl h)))
    · exact Or.inr (Or.inr (Or.inr (Or.inr h)))
  unfold resample at hout
  by_cases hv : (¬ truthyS freq = true ∨ datetime_col ∉ names df
      ∨ ¬ (∀ c ∈ cols, c ∈ names df))
  · rw [if_pos hv] at hout
    exact absurd hout (by simp)
  · rw [if_neg hv, if_pos hadisj] at hout
    have hcore : resampleCore freqW df datetime_col (freq.getD "") agg cols
        = out := by
      simpa using hout
    subst hcore
    intro b hb
    unfold resampleCore at hb
    rw [colOf] at hb
    simp only [List.lookup, beq_self_eq_true, if_pos] at hb
    rw [Option.getD_some] at hb
    rcases List.mem_map.mp hb with ⟨r, hrkept, hrb⟩
    have hr1 : r.1 = b := by
      simpa using hrb
    rcases List.mem_filter.mp hrkept with ⟨hragg, hrnall⟩
    have hex : ∃ v ∈ r.2, ¬ (v == Value.missing) = true := by
      by_contra hall
      push_neg at hall
      have hallt : r.2.all (fun v => v == Value.missing) = true :=
        List.all_eq_true.mpr hall
      simp [hallt] at hrnall
    rcases hex with ⟨v, hvmem, hvne⟩
    rcases List.mem_map.mp hragg with ⟨bk, hbk, hrbk⟩
    have hr2 : r.2 = (List.range cols.length).map (fun j =>
        aggCell agg (((rowsOf df datetime_col cols).filter
          (fun r => bucketOf (freqW (freq.getD "")) r.1 == bk)).map
            (fun r => r.2.getD j Value.missing))) := by
      rw [← hrbk]
    have hbk1 : bk = b := by
      rw [← hr1, ← hrbk]
    rw [hbk1] at hr2
    rw [hr2] at hvmem
    rcases List.mem_map.mp hvmem with ⟨j, hjmem, hjv⟩
    have hjlt : j < cols.length := List.mem_range.mp hjmem
    have hvagg : v = aggCell agg (((rowsOf df datetime_col cols).filter
        (fun r => bucketOf (freqW (freq.getD "")) r.1 == b)).map
          (fun r => r.2.getD j Value.missing)) := hjv.symm
    have hnums : ∃ x : Rat, aggNum agg
        ((((rowsOf df datetime_col cols).filter
          (fun r => bucketOf (freqW (freq.getD "")) r.1 == b)).map
            (fun r => r.2.getD j Value.missing)).filterMap numOf) = some x := by
      rw [hvagg] at hvne
      unfold aggCell at hvne
      rcases hA : aggNum agg
          ((((rowsOf df datetime_col cols).filter
            (fun r => bucketOf (freqW (freq.getD "")) r.1 == b)).map
              (fun r => r.2.getD j Value.missing)).filterMap numOf) with _ | x
      · rw [hA] at hvne
        simp at hvne
      · exact ⟨x, hA⟩
    rcases hnums with ⟨x, hx⟩
    have hne : ((((rowsOf df datetime_col cols).filter
        (fun r => bucketOf (freqW (freq.getD "")) r.1 == b)).map
          (fun r => r.2.getD j Value.missing)).filterMap numOf) ≠ [] :=
      aggNum_some_nonempty agg _ x hagg hx
    have hsome : ∃ a ∈ (((rowsOf df datetime_col cols).filter
        (fun r => bucketOf (freqW (freq.getD "")) r.1 == b)).map
          (fun r => r.2.getD j Value.missing)), (numOf a).isSome = true := by
      by_contra hnone
      push_neg at hnone
      apply hne
      rw [List.filterMap_eq_nil_iff]
      intro a ham
      have := hnone a ham
      cases hcase : numOf a with
      | none => rfl
      | some y =>
        rw [hcase] at this
        simp at this
    rcases hsome with ⟨a, hamem, hasome⟩
    rcases List.mem_map.mp hamem with ⟨rr, hrrmem, hrra⟩
    rcases List.mem_filter.mp hrrmem with ⟨hrrrows, hrrbkt⟩
    refine ⟨j, hjlt, rr, hrrrows, ?_, ?_⟩
    · exact beq_iff_eq.mp hrrbkt
    · rw [hrra]
      exact hasome

/-- C3 witness for the amended claim: one bucket with a genuine value,
aggregated by min, is retained and has numeric input data. -/
theorem resample_drops_all_missing_buckets_witness :
    ("min" = "mean" ∨ "min" = "min" ∨ "min" = "max" ∨ "min" = "median")
    ∧ resample freqDays [("dt", [Value.time 0]), ("v", [Value.num 2])] "dt"
        (some "D") "min" ["v"]
        = Except.ok (some [("dt", [Value.time 0]), ("v", [Value.num 2])])
    ∧ (∃ j < (["v"] : List String).length,
        ∃ r ∈ rowsOf [("dt", [Value.time 0]), ("v", [Value.num 2])] "dt" ["v"],
          bucketOf (freqDays ((some "D").getD "")) r.1 = 0
          ∧ (numOf (r.2.getD j Value.missing)).isSome = true) := by
  refine ⟨Or.inr (Or.inl rfl), by decide, ?_⟩
  exact resample_drops_all_missing_buckets freqDays
    [("dt", [Value.time 0]), ("v", [Value.num 2])] "dt" (some "D") "min"
    ["v"] [("dt", [Value.time 0]), ("v", [Value.num 2])]
    (Or.inr (Or.inl rfl)) (by decide) 0 (by decide)

/-- C3 counterexample: with aggregation sum, a bucket whose only
selected column is entirely missing is not dropped; it survives into
the output with value 0, because pandas sums an all-missing bucket to
0 rather than NaN. -/
theorem resample_sum_keeps_all_missing_bucket :
    resample freqDays [("dt", [Value.time 0]), ("v", [Value.missing])] "dt"
        (some "D") "sum" ["v"]
      = Except.ok (some [("dt", [Value.time 0]), ("v", [Value.num 0])])
    ∧ (∀ v ∈ colOf [("dt", [Value.time 0]), ("v", [Value.missing])] "v",
        v = Value.missing) := by
  exact ⟨by decide, by decide⟩

/-- Substring containment on character lists (the Python in operator on
strings). -/
def containsSub (hay needle : List Char) : Bool :=
  hay.tails.any (fun t => needle.isPrefixOf t)

/-- The pass 1 candidate test of detect_datetime_col (loader.py line
72): the lowercased header contains date or time. -/
def nameHint (c : String) : Bool :=
  containsSub (lowerChars c.toList) "date".toList
    || containsSub (lowerChars c.toList) "time".toList

/-- Whether pd.to_datetime(cell, errors=coerce) yields a real timestamp:
strings go through the parser; existing timestamps and plain numbers
parse (pandas reads numbers as epoch offsets); missing (NaN) gives NaT. -/
def cellParsesTime (pt : String → Option Int) : Value → Bool
  | .str s => (pt s).isSome
  | .num _ => true
  | .time _ => true
  | .missing => false

/-- CSVLoader._score_datetime (loader.py lines 25 to 51): the fraction
of the first 100 cells that parse as datetimes.  The mean over an empty
sample is NaN, which fails every threshold comparison, so it is modeled
as score 0. -/
def scoreDatetime (pt : String → Option Int) (vals : List Value) : Rat :=
  let s := vals.take 100
  if s.length = 0 then 0
  else ((s.countP (cellParsesTime pt) : Nat) : Rat) / ((s.length : Nat) : Rat)

/-- One step of the pass 2 maximum search of detect_datetime_col
(loader.py lines 78 to 79): the head of the stable descending sort by
score is the first column attaining the maximal score, since Python
sorted is stable; only a strictly larger score displaces the current
best. -/
def bestStep (pt : String → Option Int) (acc : Option (String × Rat))
    (nv : String × List Value) : Option (String × Rat) :=
  match acc with
  | none => some (nv.1, scoreDatetime pt nv.2)
  | some bs =>
    if bs.2 < scoreDatetime pt nv.2 then some (nv.1, scoreDatetime pt nv.2)
    else acc

/-- The (column, score) pair at the head of the stable descending sort
of pass 2, computed as a left fold of bestStep. -/
def bestScored (pt : String → Option Int) (df : DF) : Option (String × Rat) :=
  df.foldl (bestStep pt) none

theorem bestStep_none (pt : String → Option Int) (nv : String × List Value) :
    bestStep pt none nv = some (nv.1, scoreDatetime pt nv.2) := rfl

theorem bestStep_some (pt : String → Option Int) (p : String × Rat)
    (nv : String × List Value) :
    bestStep pt (some p) nv
      = if p.2 < scoreDatetime pt nv.2 then some (nv.1, scoreDatetime pt nv.2)
        else some p := rfl

/-- CSVLoader.detect_datetime_col (loader.py lines 53 to 82): pass 1
returns the first name-hinted column scoring at least 0.8; only when no
such column exists does pass 2 return the overall best-scoring column,
provided it reaches 0.8; otherwise detection reports none. -/
def detect_datetime_col (pt : String → Option Int) (df : DF) : Option String :=
  match ((names df).filter nameHint).find?
      (fun c => decide ((0.8 : Rat) ≤ scoreDatetime pt (colOf df c))) with
  | some c => some c
  | none =>
    match bestScored pt df with
    | some nb => if (0.8 : Rat) ≤ nb.2 then some nb.1 else none
    | none => none

/-- A frame with two identically scoring columns, the second carrying a
date hint in its header, the first not. -/
def dfPref : DF :=
  [("Station", [Value.str "1", Value.str "2"]),
   ("Date/Time", [Value.str "1", Value.str "2"])]

theorem bestScored_aux (pt : String → Option Int) :
    ∀ (df : DF) (acc : Option (String × Rat)) (c : String) (s : Rat),
      df.foldl (bestStep pt) acc = some (c, s) →
      ((acc = some (c, s)) ∨ (∃ nv ∈ df, nv.1 = c ∧ s = scoreDatetime pt nv.2))
      ∧ (∀ nv ∈ df, scoreDatetime pt nv.2 ≤ s)
      ∧ (∀ b bs, acc = some (b, bs) → bs ≤ s) := by
  intro df
  induction df with
  | nil =>
    intro acc c s h
    rw [List.foldl_nil] at h
    refine ⟨Or.inl h, by simp, ?_⟩
    intro b bs hacc
    rw [hacc] at h
    injection h with h1
    exact le_of_eq (congrArg Prod.snd h1)
  | cons nv rest ih =>
    intro acc c s h
    rw [List.foldl_cons] at h
    rcases ih (bestStep pt acc nv) c s h with ⟨horig, hmax, haccle⟩
    have hstep : ∀ b bs, acc = some (b, bs) → bs ≤ s := by
      intro b bs he
      subst he
      by_cases hlt : bs < scoreDatetime pt nv.2
      · have h2 : scoreDatetime pt nv.2 ≤ s := by
          apply haccle nv.1
          simp [bestStep_some, hlt]
        exact le_trans (le_of_lt hlt) h2
      · apply haccle b bs
        simp [bestStep_some, hlt]
    have hnvle : scoreDatetime pt nv.2 ≤ s := by
      cases acc with
      | none => exact haccle nv.1 _ (bestStep_none pt nv)
      | some p =>
        by_cases hlt : p.2 < scoreDatetime pt nv.2
        · exact haccle nv.1 _ (by simp [bestStep_some, hlt])
        · exact le_trans (le_of_not_lt hlt) (hstep p.1 p.2 (by simp))
    refine ⟨?_, ?_, hstep⟩
    · rcases horig with horig | horig
      · cases acc with
        | none =>
          rw [bestStep_none] at horig
          injection horig with h1
          exact Or.inr ⟨nv, by simp, congrArg Prod.fst h1,
            (congrArg Prod.snd h1).symm⟩
        | some p =>
          by_cases hlt : p.2 < scoreDatetime pt nv.2
          · rw [bestStep_some, if_pos hlt] at horig
            injection horig with h1
            exact Or.inr ⟨nv, by simp, congrArg Prod.fst h1,
              (congrArg Prod.snd h1).symm⟩
          · rw [bestStep_some, if_neg hlt] at horig
            exact Or.inl horig
      · rcases horig with ⟨nv2, hnv2, hp⟩
        exact Or.inr ⟨nv2, by simp [hnv2], hp⟩
    · intro nv2 hnv2
      rcases List.mem_cons.mp hnv2 with he | hm
      · rw [he]
        exact hnvle
      · exact hmax nv2 hm

theorem bestScored_spec (pt : String → Option Int) (df : DF) (c : String)
    (s : Rat) (h : bestScored pt df = some (c, s)) :
    (∃ nv ∈ df, nv.1 = c ∧ s = scoreDatetime pt nv.2)
    ∧ ∀ nv ∈ df, scoreDatetime pt nv.2 ≤ s := by
  rcases bestScored_aux pt df none c s h with ⟨horig, hmax, _⟩
  rcases horig with horig | horig
  · exact absurd horig (by simp)
  · exact ⟨horig, hmax⟩

theorem detect_pass1 (pt : String → Option Int) (df : DF) (c : String)
    (h : ((names df).filter nameHint).find?
        (fun c => decide ((0.8 : Rat) ≤ scoreDatetime pt (colOf df c)))
      = some c) :
    detect_datetime_col pt df = some c := by
  unfold detect_datetime_col
  rw [h]

/-- C6: datetime detection is two-pass.  Pass 1 considers only columns
whose name case-insensitively contains date or time and returns the
first such column scoring at least 0.8 on the sampled values; only when
pass 1 finds none does pass 2 return the single highest-scoring column
(first in frame order among equals) when its score reaches 0.8, else
detection reports none.  Hence the qualifying column Date/Time of
dfPref is selected over the same-scoring earlier column Station, whose
name lacks the hint. -/
theorem detect_datetime_col_spec (pt : String → Option Int) (df : DF) :
    (∀ c, ((names df).filter nameHint).find?
          (fun c => decide ((0.8 : Rat) ≤ scoreDatetime pt (colOf df c)))
        = some c →
      detect_datetime_col pt df = some c)
    ∧ (((names df).filter nameHint).find?
          (fun c => decide ((0.8 : Rat) ≤ scoreDatetime pt (colOf df c)))
        = none →
      (∀ c s, bestScored pt df = some (c, s) →
        ((0.8 : Rat) ≤ s →
          detect_datetime_col pt df = some c
            ∧ (∃ nv ∈ df, nv.1 = c ∧ s = scoreDatetime pt nv.2)
            ∧ ∀ nv ∈ df, scoreDatetime pt nv.2 ≤ s)
        ∧ (¬ (0.8 : Rat) ≤ s → detect_datetime_col pt df = none))
      ∧ (bestScored pt df = none → detect_datetime_col pt df = none))
    ∧ (detect_datetime_col parseTimeSimple dfPref = some "Date/Time"
        ∧ scoreDatetime parseTimeSimple (colOf dfPref "Station")
            = scoreDatetime parseTimeSimple (colOf dfPref "Date/Time")
        ∧ nameHint "Station" = false ∧ nameHint "Date/Time" = true) := by
  refine ⟨fun c h => detect_pass1 pt df c h, ?_, ?_⟩
  · intro hnone
    constructor
    · intro c s hbs
      constructor
      · intro hge
        refine ⟨?_, bestScored_spec pt df c s hbs⟩
        unfold detect_datetime_col
        rw [hnone, hbs]
        simp [hge]
      · intro hlt
        unfold detect_datetime_col
        rw [hnone, hbs]
        simp [hlt]
    · intro hbn
      unfold detect_datetime_col
      rw [hnone, hbn]
  · have hscore : scoreDatetime parseTimeSimple [Value.str "1", Value.str "2"]
        = 1 := by
      have h1 : ([Value.str "1", Value.str "2"].take 100).countP
          (cellParsesTime parseTimeSimple) = 2 := by decide
      have h2 : ([Value.str "1", Value.str "2"].take 100).length = 2 := by
        decide
      simp only [scoreDatetime, h1, h2]
      norm_num
    have hp : (fun c => decide ((0.8 : Rat) ≤ scoreDatetime parseTimeSimple
        (colOf dfPref c))) "Date/Time" = true := by
      have hle : (0.8 : Rat) ≤ scoreDatetime parseTimeSimple
          (colOf dfPref "Date/Time") := by
        have hcolDT : colOf dfPref "Date/Time"
            = [Value.str "1", Value.str "2"] := rfl
        rw [hcolDT, hscore]
        norm_num
      simpa using hle
    have hfl : (names dfPref).filter nameHint = ["Date/Time"] := by decide
    have hfind : ((names dfPref).filter nameHint).find?
        (fun c => decide ((0.8 : Rat) ≤ scoreDatetime parseTimeSimple
          (colOf dfPref c))) = some "Date/Time" := by
      rw [hfl]
      exact List.find?_cons_of_pos _ hp
    refine ⟨detect_pass1 parseTimeSimple dfPref "Date/Time" hfind, rfl,
      by decide, by decide⟩

/-- C6 witness: on the concrete frame dfPref the name-preference pass
picks the hinted column Date/Time over the same-scoring first column
Station. -/
theorem detect_datetime_col_spec_witness :
    detect_datetime_col parseTimeSimple dfPref = some "Date/Time"
    ∧ scoreDatetime parseTimeSimple (colOf dfPref "Station")
        = scoreDatetime parseTimeSimple (colOf dfPref "Date/Time")
    ∧ nameHint "Station" = false ∧ nameHint "Date/Time" = true :=
  (detect_datetime_col_spec parseTimeSimple dfPref).2.2

/-- One row of the summary table.  The field std2 is the square of the
population standard deviation (ddof=0) computed by the source; it is
kept squared so the embedding stays in exact rational arithmetic (the
reported std equals the square root of std2). -/
structure SummaryRow where
  column : String
  count : Nat
  mean : Rat
  std2 : Rat
  min : Rat
  max : Rat
deriving DecidableEq

/-- Summarizer.table (summary.py lines 23 to 59): one row per requested
column that is present in the frame and has at least one non-missing
numeric value after coercion; absent columns and all-missing columns
are skipped.  Each row carries the count, mean, population variance
(the square of std with ddof=0, divisor N), min and max of the
non-missing numeric subset. -/
def Summarizer.table (p : String → Option Rat) (df : DF)
    (cols : List String) : List SummaryRow :=
  cols.foldl (fun rows col =>
    if col ∈ names df then
      let s := toNumericDropna p df col
      if s.length = 0 then rows
      else rows ++ [⟨col, s.length, s.sum / (s.length : Rat),
        (s.map (fun x => (x - s.sum / (s.length : Rat)) ^ 2)).sum
          / (s.length : Rat),
        (minFold s).getD 0, (maxFold s).getD 0⟩]
    else rows) []

theorem summarizer_table_single (p : String → Option Rat) (df : DF)
    (col : String) (hcol : col ∈ names df)
    (hne : toNumericDropna p df col ≠ []) :
    Summarizer.table p df [col]
      = [⟨col, (toNumericDropna p df col).length,
          (toNumericDropna p df col).sum
            / ((toNumericDropna p df col).length : Rat),
          ((toNumericDropna p df col).map (fun x =>
            (x - (toNumericDropna p df col).sum
              / ((toNumericDropna p df col).length : Rat)) ^ 2)).sum
            / ((toNumericDropna p df col).length : Rat),
          (minFold (toNumericDropna p df col)).getD 0,
          (maxFold (toNumericDropna p df col)).getD 0⟩] := by
  have hlen : ¬ (toNumericDropna p df col).length = 0 := by simpa using hne
  simp [Summarizer.table, hcol, hlen, hne]

/-- C7: for every frame and every summarized column that is present and
has a non-missing numeric value, the summary emits one row whose count
is the number of non-missing numeric values, whose mean, population
variance (divisor N, the square of the population standard deviation),
min and max are computed over exactly that subset; concretely the
values 1, 2, 3 give count 3, mean 2, variance 2/3 (so std is the
square root of 2/3), min 1 and max 3. -/
theorem summarizer_table_spec (p : String → Option Rat) (df : DF)
    (col : String) (hcol : col ∈ names df)
    (hne : toNumericDropna p df col ≠ []) :
    Summarizer.table p df [col]
      = [⟨col, (toNumericDropna p df col).length,
          (toNumericDropna p df col).sum
            / ((toNumericDropna p df col).length : Rat),
          ((toNumericDropna p df col).map (fun x =>
            (x - (toNumericDropna p df col).sum
              / ((toNumericDropna p df col).length : Rat)) ^ 2)).sum
            / ((toNumericDropna p df col).length : Rat),
          (minFold (toNumericDropna p df col)).getD 0,
          (maxFold (toNumericDropna p df col)).getD 0⟩]
    ∧ Summarizer.table parseNumSimple
        [("v", [Value.num 1, Value.num 2, Value.num 3])] ["v"]
      = [⟨"v", 3, 2, 2 / 3, 1, 3⟩] := by
  refine ⟨summarizer_table_single p df col hcol hne, ?_⟩
  have hs : toNumericDropna parseNumSimple
      [("v", [Value.num 1, Value.num 2, Value.num 3])] "v"
      = [(1 : Rat), 2, 3] := by decide
  rw [summarizer_table_single parseNumSimple
    [("v", [Value.num 1, Value.num 2, Value.num 3])] "v" (by decide)
    (by rw [hs]; decide), hs]
  norm_num [List.sum_cons, List.sum_nil, minFold, maxFold, min_def, max_def]

/-- C7 witness: the summary row of the concrete numeric column 1, 2, 3. -/
theorem summarizer_table_spec_witness :
    Summarizer.table parseNumSimple
        [("v", [Value.num 1, Value.num 2, Value.num 3])] ["v"]
      = [⟨"v", 3, 2, 2 / 3, 1, 3⟩] :=
  (summarizer_table_spec parseNumSimple
    [("v", [Value.num 1, Value.num 2, Value.num 3])] "v"
    (by decide) (by decide)).2

/-- Whitespace-run collapsing of slugify (utils.py line 31): each
maximal run of whitespace becomes one hyphen; the flag records whether
the previous character was whitespace. -/
def collapseWS : List Char → Bool → List Char
  | [], _ => []
  | c :: rest, prev =>
    if c.isWhitespace then
      if prev then collapseWS rest true else '-' :: collapseWS rest true
    else c :: collapseWS rest false

/-- The characters slugify keeps (utils.py line 33): ASCII
alphanumerics, dot, underscore, hyphen. -/
def slugAllowed (c : Char) : Bool :=
  c.isAlphanum || c == '.' || c == '_' || c == '-'

/-- utils.slugify (utils.py lines 16 to 34): strip, collapse whitespace
runs to single hyphens, drop every disallowed character, and fall back
to the name figure when nothing remains. -/
def slugify (s : String) : String :=
  let t := (collapseWS (stripChars s.toList) false).filter slugAllowed
  if t.isEmpty then "figure" else String.mk t

/-- The observable content of one histogram render: output path, the
bin count handed to hist, and the title. -/
structure HistChart where
  path : String
  bins : Int
  title : String
deriving DecidableEq

/-- Visualizer.histograms (visualizer.py lines 79 to 131): for each
requested column present, coerce to numeric and drop missing values;
skip the column when nothing remains; otherwise pick the bin count
(for bins 0 the truncated square root of the series length clamped to
10..50, modeled by Nat.sqrt since int of numpy sqrt truncates, else the
caller count unchanged) and render one chart.  The returned records
carry the observable parameters in processing order. -/
def histograms (p : String → Option Rat) (df : DF) (value_cols : List String)
    (outdir : String) (bins : Int) (suffix : String) : List HistChart :=
  value_cols.foldl (fun paths col =>
    if col ∈ names df then
      let series := toNumericDropna p df col
      if series.isEmpty then paths
      else
        paths ++ [⟨outdir ++ "/" ++ slugify col ++ "_hist" ++ suffix ++ ".png",
          if bins = 0 then max 10 (min 50 (Int.ofNat (Nat.sqrt series.length)))
          else bins,
          col ++ " histogram" ++ suffix⟩]
    else paths) []

/-- A one-column frame of n consecutive numeric values, for bin-count
scenarios. -/
def dfNums (n : Nat) : DF :=
  [("v", List.map (fun i : Nat => Value.num (i : Rat)) (List.range n))]

/-- The bin rule in the words of the claim: round (not truncate) the
square root of N, clamped to 10..50.  Since floor (2 * sqrt N) equals
Nat.sqrt (4 * N) and sqrt N is never exactly half-integral, the nearest
integer to sqrt N is (Nat.sqrt (4 * N) + 1) / 2. -/
def specAutoBins (n : Nat) : Nat :=
  max 10 (min 50 ((Nat.sqrt (4 * n) + 1) / 2))

theorem filterMap_some_fn {α β : Type} (f : α → β) (l : List α) :
    l.filterMap (fun a => some (f a)) = l.map f := by
  induction l with
  | nil => rfl
  | cons a l ih => simp [List.filterMap_cons, ih]

theorem toNumericDropna_dfNums (p : String → Option Rat) (n : Nat) :
    toNumericDropna p (dfNums n) "v"
      = List.map (fun i : Nat => (i : Rat)) (List.range n) := by
  unfold toNumericDropna dfNums colOf
  rw [show List.lookup "v"
      [("v", List.map (fun i : Nat => Value.num (i : Rat)) (List.range n))]
      = some (List.map (fun i : Nat => Value.num (i : Rat)) (List.range n))
    from rfl]
  rw [Option.getD_some, List.filterMap_map]
  have hfe : (toNumOpt p ∘ fun i : Nat => Value.num (i : Rat))
      = (fun i : Nat => some ((i : Rat))) := by
    funext i
    rfl
  rw [hfe]
  exact filterMap_some_fn (fun i : Nat => ((i : Rat))) (List.range n)

theorem histograms_single (p : String → Option Rat) (df : DF)
    (col outdir suffix : String) (bins : Int)
    (hcol : col ∈ names df) (hne : toNumericDropna p df col ≠ []) :
    histograms p df [col] outdir bins suffix
      = [⟨outdir ++ "/" ++ slugify col ++ "_hist" ++ suffix ++ ".png",
          if bins = 0 then
            max 10 (min 50 (Int.ofNat
              (Nat.sqrt (toNumericDropna p df col).length)))
          else bins,
          col ++ " histogram" ++ suffix⟩] := by
  have hie : (toNumericDropna p df col).isEmpty = false := by
    cases hE : (toNumericDropna p df col).isEmpty
    · rfl
    · exact absurd (List.isEmpty_iff.mp hE) hne
  simp [histograms, hcol, hie, hne]

theorem dfNums_bins (n : Nat) (hn : 0 < n) :
    (histograms parseNumSimple (dfNums n) ["v"] "out" 0 "").map
        (fun h => h.bins)
      = [max 10 (min 50 (Int.ofNat (Nat.sqrt n)))] := by
  have hne : toNumericDropna parseNumSimple (dfNums n) "v" ≠ [] := by
    rw [toNumericDropna_dfNums]
    intro h
    have hl := congrArg List.length h
    rw [List.length_map, List.length_range] at hl
    simp at hl
    omega
  rw [histograms_single parseNumSimple (dfNums n) "v" "out" "" 0
    (by simp [dfNums, names]) hne]
  rw [toNumericDropna_dfNums, List.length_map, List.length_range]
  simp

/-- C2 amended: for every nonempty numeric series, a zero bins argument
selects the truncated (not rounded) square root of the series length,
clamped to the inclusive range 10..50, and a nonzero caller count is
used unchanged; in particular 400 points give exactly 20 bins, 4 points
give 10 (clamped floor) and 10000 points give 50 (clamped ceiling). -/
theorem histograms_bins_spec (p : String → Option Rat) (df : DF)
    (col outdir suffix : String) (bins : Int)
    (hcol : col ∈ names df) (hne : toNumericDropna p df col ≠ []) :
    histograms p df [col] outdir bins suffix
      = [⟨outdir ++ "/" ++ slugify col ++ "_hist" ++ suffix ++ ".png",
          if bins = 0 then
            max 10 (min 50 (Int.ofNat
              (Nat.sqrt (toNumericDropna p df col).length)))
          else bins,
          col ++ " histogram" ++ suffix⟩]
    ∧ (histograms parseNumSimple (dfNums 400) ["v"] "out" 0 "").map
        (fun h => h.bins) = [20]
    ∧ (histograms parseNumSimple (dfNums 4) ["v"] "out" 0 "").map
        (fun h => h.bins) = [10]
    ∧ (histograms parseNumSimple (dfNums 10000) ["v"] "out" 0 "").map
        (fun h => h.bins) = [50] := by
  refine ⟨histograms_single p df col outdir suffix bins hcol hne,
    ?_, ?_, ?_⟩
  · rw [dfNums_bins 400 (by norm_num)]
    rw [show Nat.sqrt 400 = 20 by norm_num]
    decide
  · rw [dfNums_bins 4 (by norm_num)]
    rw [show Nat.sqrt 4 = 2 by norm_num]
    decide
  · rw [dfNums_bins 10000 (by norm_num)]
    rw [show Nat.sqrt 10000 = 100 by norm_num]
    decide

/-- C2 witness: the clamped floor at 4 data points is 10 bins. -/
theorem histograms_bins_spec_witness :
    ("v" ∈ names (dfNums 4))
    ∧ toNumericDropna parseNumSimple (dfNums 4) "v" ≠ []
    ∧ (histograms parseNumSimple (dfNums 4) ["v"] "out" 0 "").map
        (fun h => h.bins) = [10] := by
  have h1 : ("v" ∈ names (dfNums 4)) := by simp [dfNums, names]
  have h2 : toNumericDropna parseNumSimple (dfNums 4) "v" ≠ [] := by
    rw [toNumericDropna_dfNums]
    simp
  exact ⟨h1, h2, (histograms_bins_spec parseNumSimple (dfNums 4) "v" "out"
    "" 0 h1 h2).2.2.1⟩

/-- C2 counterexample: with 288 points the code uses int(sqrt(288)) = 16
bins, while the rule stated by the claim, round(sqrt(288)) clamped to
10..50, gives 17; truncation and rounding disagree inside the clamp
range. -/
theorem histograms_bins_round_cex :
    (histograms parseNumSimple (dfNums 288) ["v"] "out" 0 "").map
        (fun h => h.bins) = [16]
    ∧ specAutoBins 288 = 17 := by
  constructor
  · rw [dfNums_bins 288 (by norm_num)]
    rw [show Nat.sqrt 288 = 16 by norm_num]
    decide
  · unfold specAutoBins
    rw [show (4 * 288 : Nat) = 1152 by norm_num,
      show Nat.sqrt 1152 = 33 by norm_num]
    decide

/-- One iteration of the chart loop of Visualizer.timeseries
(visualizer.py lines 58 to 75): a raised exception aborts the run (the
error is sticky); an absent requested column is skipped silently;
otherwise the datetime column is looked up (df[datetime_col], line 64),
raising KeyError when absent, else the chart path is recorded. -/
def timeseriesStep (df : DF) (datetime_col : String) (outdir suffix : String)
    (acc : Except String (List String)) (col : String) :
    Except String (List String) :=
  match acc with
  | .error e => .error e
  | .ok paths =>
    if col ∈ names df then
      if datetime_col ∈ names df then
        .ok (paths ++ [outdir ++ "/" ++ slugify col ++ suffix ++ ".png"])
      else .error ("KeyError: " ++ datetime_col)
    else .ok paths

/-- Visualizer.timeseries (visualizer.py lines 29 to 76): the paths of
the charts written, one per requested column present, in request order;
or the KeyError raised at the first present column when the datetime
column is absent. -/
def timeseries (df : DF) (datetime_col : String) (value_cols : List String)
    (outdir : String) (suffix : String) : Except String (List String) :=
  value_cols.foldl (timeseriesStep df datetime_col outdir suffix)
    (Except.ok [])

theorem timeseries_foldl_error (df : DF) (datetime_col : String)
    (outdir suffix e : String) (cs : List String) :
    cs.foldl (timeseriesStep df datetime_col outdir suffix)
        (Except.error e) = Except.error e := by
  induction cs with
  | nil => rfl
  | cons c cs ih =>
    rw [List.foldl_cons]
    exact ih

/-- C10: Visualizer.timeseries silently skips only absent value
columns: when every requested column is absent the result is an empty
path list and the datetime column is never consulted, but when the
datetime column is absent while at least one requested value column is
present, the operation fails with the KeyError raised by the datetime
lookup instead of skipping or returning an empty path list. -/
theorem timeseries_keyerror_spec (df : DF) (datetime_col : String)
    (value_cols : List String) (outdir suffix : String) :
    ((datetime_col ∉ names df ∧ ∃ c ∈ value_cols, c ∈ names df) →
      timeseries df datetime_col value_cols outdir suffix
        = Except.error ("KeyError: " ++ datetime_col))
    ∧ ((∀ c ∈ value_cols, c ∉ names df) →
      timeseries df datetime_col value_cols outdir suffix
        = Except.ok []) := by
  have haux : ∀ (cs : List String) (paths : List String),
      datetime_col ∉ names df → (∃ c ∈ cs, c ∈ names df) →
      cs.foldl (timeseriesStep df datetime_col outdir suffix)
          (Except.ok paths)
        = Except.error ("KeyError: " ++ datetime_col) := by
    intro cs
    induction cs with
    | nil =>
      intro paths _ hex
      rcases hex with ⟨c, hc, _⟩
      exact absurd hc (List.not_mem_nil c)
    | cons c cs ih =>
      intro paths hdt hex
      rw [List.foldl_cons]
      by_cases hc : c ∈ names df
      · have hstep : timeseriesStep df datetime_col outdir suffix
            (Except.ok paths) c
            = Except.error ("KeyError: " ++ datetime_col) := by
          simp [timeseriesStep, hc, hdt]
        rw [hstep]
        exact timeseries_foldl_error df datetime_col outdir suffix _ cs
      · have hstep : timeseriesStep df datetime_col outdir suffix
            (Except.ok paths) c = Except.ok paths := by
          simp [timeseriesStep, hc]
        rw [hstep]
        rcases hex with ⟨c2, hc2, hc2m⟩
        rcases List.mem_cons.mp hc2 with he | hm
        · exact absurd (he ▸ hc2m) hc
        · exact ih paths hdt ⟨c2, hm, hc2m⟩
  have haux2 : ∀ (cs : List String) (paths : List String),
      (∀ c ∈ cs, c ∉ names df) →
      cs.foldl (timeseriesStep df datetime_col outdir suffix)
          (Except.ok paths) = Except.ok paths := by
    intro cs
    induction cs with
    | nil =>
      intro paths _
      rfl
    | cons c cs ih =>
      intro paths hall
      rw [List.foldl_cons]
      have hc : c ∉ names df := hall c (by simp)
      have hstep : timeseriesStep df datetime_col outdir suffix
          (Except.ok paths) c = Except.ok paths := by
        simp [timeseriesStep, hc]
      rw [hstep]
      exact ih paths (fun c2 h2 => hall c2 (by simp [h2]))
  exact ⟨fun h => haux value_cols [] h.1 h.2,
    fun hall => haux2 value_cols [] hall⟩

/-- C10 witness: a frame with only column v, requested columns w and v,
and the absent datetime column dt raises the KeyError; requesting only
the absent column u returns an empty path list. -/
theorem timeseries_keyerror_spec_witness :
    ("dt" ∉ names [("v", [Value.num 1])]
      ∧ ∃ c ∈ (["w", "v"] : List String), c ∈ names [("v", [Value.num 1])])
    ∧ timeseries [("v", [Value.num 1])] "dt" ["w", "v"] "out" ""
        = Except.error ("KeyError: " ++ "dt")
    ∧ timeseries [("v", [Value.num 1])] "dt" ["u"] "out" ""
        = Except.ok [] := by
  have h1 : "dt" ∉ names [("v", [Value.num 1])] := by decide
  have hex : ∃ c ∈ (["w", "v"] : List String),
      c ∈ names [("v", [Value.num 1])] := ⟨"v", by decide, by decide⟩
  refine ⟨⟨h1, hex⟩, ?_, ?_⟩
  · exact (timeseries_keyerror_spec [("v", [Value.num 1])] "dt" ["w", "v"]
      "out" "").1 ⟨h1, hex⟩
  · exact (timeseries_keyerror_spec [("v", [Value.num 1])] "dt" ["u"]
      "out" "").2 (by decide)

end EnvCanViz
